import Mathlib

/-!
Shallow embedding of `testivus.go` (package testivus), the disappointment
collector: a store of per-test "grievances", a summarizer producing counts
by tag / test name / error, a text renderer, and the `Run`/`report` session
glue.

Modelling conventions:
* A Go `map[string]T` is embedded as an association list `List (String × T)`
  whose entries are unique by key.  Because Go's map iteration order is
  unspecified, every place the source ranges over a map is parameterised by
  an iteration sequence; the Go semantics is captured by requiring that
  sequence to be a permutation of the map's entries.
* A Go `error` value is embedded as the text its `Error()` method renders to,
  so the `Error` field of a disappointment is `Option String` (`none` = nil).
* `sort.SliceStable(rows, less)` with `less i j := rows[i].Count > rows[j].Count`
  is embedded as a stable insertion sort by count descending (`sortRows`):
  both are the unique reordering that is non-increasing in `Count` and keeps
  equal-count rows in input order.
-/

namespace Testivus

/-- `type disappointment struct` (src/testivus.go:184-189). -/
structure disappointment where
  Message : String
  Tags : List String
  Error : Option String
  Name : String
deriving Repr, DecidableEq

/-- The `Grievances map[string][]*disappointment` field of `disappointments`
(src/testivus.go:29), as an association list keyed by test name. -/
abbrev StoreMap := List (String × List disappointment)

/-- `type reportRow struct` (src/testivus.go:108-111). -/
structure reportRow where
  ID : String
  Count : Nat
deriving Repr, DecidableEq

/-- `type summary struct` (src/testivus.go:34-43); the three count maps are
association lists in discovery order. -/
structure summary where
  Total : Nat
  ByName : List (String × Nat)
  ByTag : List (String × Nat)
  ByError : List (String × Nat)
  nameRows : List reportRow
  tagRows : List reportRow
  errorRows : List reportRow
deriving Repr, DecidableEq

/-- Go map read with zero default: `m[k]` for a `map[string]int`. -/
def lookupCount : List (String × Nat) → String → Nat
  | [], _ => 0
  | (a, c) :: rest, k => if a = k then c else lookupCount rest k

/-- `m[k] = m[k] + 1` on a `map[string]int`; a fresh key is appended, so the
association list records discovery order. -/
def bump : List (String × Nat) → String → List (String × Nat)
  | [], k => [(k, 1)]
  | (a, c) :: rest, k => if a = k then (a, c + 1) :: rest else (a, c) :: bump rest k

/-- Inner loop `for _, t := range g.Tags { countByTag[t]++ }` (src/testivus.go:122-124). -/
def bumpTags : List String → List (String × Nat) → List (String × Nat)
  | [], m => m
  | t :: ts, m => bumpTags ts (bump m t)

/-- Loop over one test's records accumulating `countByTag` (src/testivus.go:121-125). -/
def tagLoop : List disappointment → List (String × Nat) → List (String × Nat)
  | [], m => m
  | g :: v, m => tagLoop v (bumpTags g.Tags m)

/-- First pass of `summarize` (src/testivus.go:117-126): one range over the
`Grievances` map accumulating both `count` and `countByTag`. -/
def tagPass : StoreMap → Nat × List (String × Nat) → Nat × List (String × Nat)
  | [], acc => acc
  | (_, v) :: rest, acc => tagPass rest (acc.1 + v.length, tagLoop v acc.2)

/-- Loop over one test's records accumulating `countByName` (src/testivus.go:142-144). -/
def nameLoop : List disappointment → List (String × Nat) → List (String × Nat)
  | [], m => m
  | g :: v, m => nameLoop v (bump m g.Name)

/-- Second pass of `summarize` (src/testivus.go:139-145).  (The source also
keeps adding `len(v)` to its local `count` here, but `s.Total` was assigned
before this loop, so that accumulation is dead.) -/
def namePass : StoreMap → List (String × Nat) → List (String × Nat)
  | [], m => m
  | (_, v) :: rest, m => namePass rest (nameLoop v m)

/-- Loop over one test's records accumulating `countByError`; only records
with a non-nil error contribute (src/testivus.go:157-163). -/
def errLoop : List disappointment → List (String × Nat) → List (String × Nat)
  | [], m => m
  | g :: v, m =>
      match g.Error with
      | some e => errLoop v (bump m e)
      | none => errLoop v m

/-- Third pass of `summarize` (src/testivus.go:156-163). -/
def errPass : StoreMap → List (String × Nat) → List (String × Nat)
  | [], m => m
  | (_, v) :: rest, m => errPass rest (errLoop v m)

/-- Insert a row into a list already sorted by count descending, behind every
row of strictly larger count and ahead of every row of smaller-or-equal
count. -/
def insertRow (r : reportRow) : List reportRow → List reportRow
  | [] => [r]
  | x :: xs => if x.Count ≤ r.Count then r :: x :: xs else x :: insertRow r xs

/-- `sort.SliceStable(rows, func(i, j) { return rows[i].Count > rows[j].Count })`
(src/testivus.go:132-134, 151-153, 169-171): stable sort by count descending. -/
def sortRows (l : List reportRow) : List reportRow := l.foldr insertRow []

/-- `reportRow{ID: k, Count: c}` from one count-map entry. -/
def toRow (kc : String × Nat) : reportRow := { ID := kc.1, Count := kc.2 }

/-- `for k, c := range countMap { rows = append(rows, reportRow{k, c}) }`
followed by the stable sort; `iter` is the (unspecified) order in which Go
iterates the count map. -/
def rowsOf (iter : List (String × Nat)) : List reportRow :=
  sortRows (iter.map toRow)

/-- `disappointments.summarize` (src/testivus.go:113-174).  `gs` is the
`Grievances` map in the order its range happens to visit it; `tagIter`,
`nameIter`, `errIter` are the orders the three count-map ranges happen to
visit theirs (each a permutation of the corresponding map). -/
def summarize (gs : StoreMap) (tagIter nameIter errIter : List (String × Nat)) : summary :=
  let tp := tagPass gs (0, [])
  { Total := tp.1
    ByTag := tp.2
    ByName := namePass gs []
    ByError := errPass gs []
    tagRows := rowsOf tagIter
    nameRows := rowsOf nameIter
    errorRows := rowsOf errIter }

/-- All records of the store, in store order: what "across all test names"
ranges over. -/
def storeRecords (gs : StoreMap) : List disappointment := (gs.map Prod.snd).flatten

/-! ### The record operation and the handle mutators -/

/-- The dedup loop of `Grievance` (src/testivus.go:272-280): `uniq` is the
slice being built, `used` the key set of the `used` map (its values are
never read). -/
def uniqLoop : List String → List String → List String → List String
  | uniq, _, [] => uniq
  | uniq, used, t :: rest =>
      if t ∈ used then uniqLoop uniq used rest
      else uniqLoop (uniq ++ [t]) (used ++ [t]) rest

/-- The deduplicated tag list a `Grievance` call computes from its `tags`
argument (src/testivus.go:272-280). -/
def grievanceTags (tags : List String) : List String := uniqLoop [] [] tags

/-- Go map lookup `v, ok := m[k]` on the `Grievances` map. -/
def lookupName : StoreMap → String → Option (List disappointment)
  | [], _ => none
  | (a, v) :: rest, k => if a = k then some v else lookupName rest k

/-- Go map store `m[k] = v` on the `Grievances` map (fresh keys appended). -/
def setName : StoreMap → String → List disappointment → StoreMap
  | [], k, v => [(k, v)]
  | (a, w) :: rest, k, v =>
      if a = k then (a, v) :: rest else (a, w) :: setName rest k v

/-- The store update of `Grievance` (src/testivus.go:287-295): start a new
slice for an unseen test name, otherwise append. -/
def storeAdd (st : StoreMap) (name : String) (g : disappointment) : StoreMap :=
  match lookupName st name with
  | none => setName st name [g]
  | some v => setName st name (v ++ [g])

/-- Outcome of a call to `Grievance`: either the fail-fast nil-dereference
of `running.Lock()` when the package store was never initialised (a
programming error, distinct from any I/O error), or the updated store
together with the record that was created. -/
inductive GrievanceOutcome where
  | programmingError
  | recorded (st : StoreMap) (g : disappointment)
deriving Repr, DecidableEq

/-- `Grievance` (src/testivus.go:267-296).  `running` is the package-level
store pointer (`none` = `Run` never initialised it, and `running.Lock()`
dereferences nil and fails fast); `name` is `t.Name()`. -/
def Grievance (running : Option StoreMap) (name msg : String) (tags : List String) :
    GrievanceOutcome :=
  match running with
  | none => .programmingError
  | some st =>
      let g : disappointment :=
        { Name := name, Message := msg, Tags := grievanceTags tags, Error := none }
      .recorded (storeAdd st name g) g

/-- `newDisappointments` (src/testivus.go:239-241): the empty store. -/
def newDisappointments : StoreMap := []

/-- `disappointment.WithTags` (src/testivus.go:217-220): appends the given
tags, with no deduplication against the tags already present. -/
def WithTags (d : disappointment) (tags : List String) : disappointment :=
  { d with Tags := d.Tags ++ tags }

/-- `disappointment.WithError` (src/testivus.go:211-214). -/
def WithError (d : disappointment) (e : String) : disappointment :=
  { d with Error := some e }

/-- `disappointment.WithMessage` (src/testivus.go:205-208). -/
def WithMessage (d : disappointment) (msg : String) : disappointment :=
  { d with Message := msg }

/-! ### Rendering -/

/-- `disappointment.String` (src/testivus.go:191-202); `%v` on a non-nil
error renders its text. -/
def dispString (d : disappointment) : String :=
  if d.Tags.length = 0 then d.Message
  else
    match d.Error with
    | some e => d.Message ++ " (" ++ String.intercalate ", " d.Tags ++ "): " ++ e
    | none => d.Message ++ " (" ++ String.intercalate ", " d.Tags ++ ")"

/-- The clean-run sentence (src/testivus.go:72). -/
def cleanRunMessage : String := "No disapointments, you are truly master of your domain.\n"

/-- The total-count line (src/testivus.go:74, 80). -/
def totalMessage (n : Nat) : String :=
  "I got a lot of problems with you people! (" ++ toString n ++ " disappointments)\n"

/-- One `\t%s\t%d\t%s\n` row of the verbose report (src/testivus.go:85).
The tab stops are later aligned by the `tabwriter` collaborator, which
rewrites only the padding; we keep literal tabs. -/
def rowLine (r : reportRow) : String :=
  "\t" ++ r.ID ++ "\t" ++ toString r.Count ++ "\t" ++ String.mk (List.replicate r.Count '|') ++ "\n"

/-- The verbose branch of `disappointments.String` (src/testivus.go:77-105):
header, total line, then the tag / error sections when non-empty and the
always-present test-name section. -/
def verboseRender (s : summary) : String :=
  "\n=== The airing of grievances:\n" ++ totalMessage s.Total
    ++ (if 0 < s.tagRows.length then "\nBy Tag:\n" ++ String.join (s.tagRows.map rowLine) else "")
    ++ (if 0 < s.errorRows.length then "\nBy Error:\n" ++ String.join (s.errorRows.map rowLine) else "")
    ++ "\nBy Test:\n" ++ String.join (s.nameRows.map rowLine) ++ "\n"

/-- `disappointments.String` (src/testivus.go:66-106): summarize, then the
clean-run sentence when the total is 0, the one-line count when not verbose,
the full report otherwise.  `verbose` is `testing.Verbose()`. -/
def storeString (gs : StoreMap) (verbose : Bool)
    (tagIter nameIter errIter : List (String × Nat)) : String :=
  let s := summarize gs tagIter nameIter errIter
  if s.Total = 0 then cleanRunMessage
  else if !verbose then totalMessage s.Total
  else verboseRender s

/-! ### Serialization -/

/-- The JSON values appearing in the summary object. -/
inductive JVal where
  | num (n : Nat)
  | obj (m : List (String × Nat))
deriving Repr, DecidableEq

/-- `summary.MarshalJSON` (src/testivus.go:46-62) as the key/value pairs of
the emitted object: `total`, `byTag`, `byName` always, and `byError` only
when it is non-empty (the source copies `ByError` into a fresh map `be`
with the same contents before adding it). -/
def summaryMarshal (s : summary) : List (String × JVal) :=
  let m := [("total", JVal.num s.Total), ("byTag", JVal.obj s.ByTag), ("byName", JVal.obj s.ByName)]
  if 0 < s.ByError.length then m ++ [("byError", JVal.obj s.ByError)] else m

/-! ### Session: `report` and `Run` -/

/-- The flag argument of `os.OpenFile` in `report` (src/testivus.go:250),
by named bits: `os.O_CREATE|os.O_WRONLY` sets `create` and `wronly` only. -/
structure OpenFlags where
  create : Bool
  wronly : Bool
  append : Bool
  trunc : Bool
deriving Repr, DecidableEq

/-- `os.O_CREATE|os.O_WRONLY` (src/testivus.go:250). -/
def reportOpenFlags : OpenFlags :=
  { create := true, wronly := true, append := false, trunc := false }

/-- Modelled from the POSIX semantics of the external file collaborator:
the contents of a file that held `existing` after opening it with `flags`
and writing `doc` once.  Truncation empties it first; append mode writes
after the old end; otherwise writing starts at offset 0 and old bytes past
the written length survive. -/
def fileContentsAfterWrite (flags : OpenFlags) (existing doc : List Char) : List Char :=
  if flags.trunc then doc
  else if flags.append then existing ++ doc
  else doc ++ existing.drop doc.length

/-- Observable session events, in order: lines printed to stdout, the
attempt to open the sink, the successful encode into the sink. -/
inductive Ev where
  | printed (s : String)
  | openAttempt (path : String) (flags : OpenFlags)
  | encoded (path : String)
deriving Repr, DecidableEq

/-- The session's environment: the `-testivus.outputfile` flag value
(`""` = unset, src/testivus.go:23) and the outcomes the external file
collaborator would give to the open and encode steps. -/
structure ReportEnv where
  reportFile : String
  openResult : Except String Unit
  encodeResult : Except String Unit

/-- `report` (src/testivus.go:245-264): print the rendered text first, then,
only if a sink path is configured, open it with `reportOpenFlags` and encode
the document; either failure is returned.  Result: events in order, and the
error if any. -/
def report (gs : StoreMap) (verbose : Bool)
    (tagIter nameIter errIter : List (String × Nat)) (env : ReportEnv) :
    List Ev × Option String :=
  let evs := [Ev.printed (storeString gs verbose tagIter nameIter errIter)]
  if env.reportFile = "" then (evs, none)
  else
    let evs := evs ++ [Ev.openAttempt env.reportFile reportOpenFlags]
    match env.openResult with
    | .error e => (evs, some e)
    | .ok _ =>
        match env.encodeResult with
        | .error e => (evs, some e)
        | .ok _ => (evs ++ [Ev.encoded env.reportFile], none)

/-- `Run` (src/testivus.go:225-235): `suiteCode` is what `m.Run()` returned;
on a report error the wrapped diagnostic is printed and the status is 1,
otherwise the status is the suite's own code.  Result: final status and the
session's events. -/
def Run (suiteCode : Int) (gs : StoreMap) (verbose : Bool)
    (tagIter nameIter errIter : List (String × Nat)) (env : ReportEnv) :
    Int × List Ev :=
  let r := report gs verbose tagIter nameIter errIter env
  match r.2 with
  | some e => (1, r.1 ++ [Ev.printed ("could not save report: " ++ e)])
  | none => (suiteCode, r.1)

/-! ### Specification-side reference definitions -/

/-- Rows in non-increasing count order ("sorted by count descending"). -/
def rowsSortedDesc (rows : List reportRow) : Prop :=
  List.Pairwise (fun a b : reportRow => b.Count ≤ a.Count) rows

/-- What one row list of the summary guarantees, given the count map
`counts` it was built from and the order `iter` in which that map was
iterated: sorted by count descending, one row per map entry, and
equal-count rows left in iteration order. -/
def rowListOK (iter counts : List (String × Nat)) (rows : List reportRow) : Prop :=
  rowsSortedDesc rows ∧
  rows.Perm (counts.map toRow) ∧
  ∀ c, rows.filter (fun x => x.Count == c) = (iter.map toRow).filter (fun x => x.Count == c)

/-- The spec's "deduplicated, keeping first occurrence's position": keep
each element where it first appears and drop its later occurrences. -/
def dedupKeepFirst : List String → List String
  | [] => []
  | t :: rest => t :: dedupKeepFirst (rest.filter (fun x => x ≠ t))
termination_by l => l.length
decreasing_by
  simp only [List.length_cons]
  exact Nat.lt_succ_of_le (List.length_filter_le _ rest)

/-! ### Concrete stores used by counterexamples and witnesses -/

/-- A record tagged `a`, as `Grievance(t, "m1", "a")` stores it for a test
named `A`. -/
def recTagA : disappointment :=
  { Name := "A", Message := "m1", Tags := ["a"], Error := none }

/-- A record tagged `b`, recorded after `recTagA` under the same test. -/
def recTagB : disappointment :=
  { Name := "A", Message := "m2", Tags := ["b"], Error := none }

/-- A store with two equal-count tags, `a` discovered before `b`. -/
def pairStore : StoreMap := [("A", [recTagA, recTagB])]

/-- The tag count map of `pairStore` in its discovery order. -/
def itAB : List (String × Nat) := [("a", 1), ("b", 1)]

/-- The same map entries in the opposite order: another order a Go map
range over the same map may produce. -/
def itBA : List (String × Nat) := [("b", 1), ("a", 1)]

/-- The record `Grievance(t, "m", "a")` stores (tags deduplicated to
`["a"]`) after its handle was mutated in place by `WithTags("a")`, which
appends without deduplication: its tag list is `["a", "a"]`. -/
def c3record : disappointment :=
  WithTags { Name := "A", Message := "m", Tags := grievanceTags ["a"], Error := none } ["a"]

/-- The store holding only `c3record`. -/
def c3store : StoreMap := [("A", [c3record])]

/-- Scenario-B style store: three records under test `A` (one untagged, one
tagged `speed`, one tagged `speed, download`) and one under test `B` tagged
`speed` carrying the error `timeout exceeded`. -/
def sampleStore : StoreMap :=
  [("A",
    [{ Name := "A", Message := "My son tells me your company stinks!", Tags := [], Error := none },
     { Name := "A", Message := "You're slow!", Tags := ["speed"], Error := none },
     { Name := "A", Message := "You're sending too much data!", Tags := ["speed", "download"], Error := none }]),
   ("B",
    [{ Name := "B", Message := "too slow", Tags := ["speed"], Error := some "timeout exceeded" }])]

/-! ## Helper lemmas: the counting passes -/

theorem tagPass_fst (gs : StoreMap) : ∀ acc : Nat × List (String × Nat),
    (tagPass gs acc).1 = acc.1 + ((gs.map Prod.snd).map List.length).sum := by
  induction gs with
  | nil => intro acc; simp [tagPass]
  | cons kv rest ih =>
      intro acc
      obtain ⟨n, v⟩ := kv
      simp [tagPass, ih]
      omega

theorem lookupCount_bump (m : List (String × Nat)) (k k' : String) :
    lookupCount (bump m k) k' = lookupCount m k' + (if k = k' then 1 else 0) := by
  induction m with
  | nil => simp [bump, lookupCount]
  | cons kv rest ih =>
      obtain ⟨a, c⟩ := kv
      by_cases hak : a = k <;> by_cases hkk : k = k' <;> by_cases hak' : a = k' <;>
        simp_all [bump, lookupCount]

theorem lookupCount_bumpTags (ts : List String) : ∀ (m : List (String × Nat)) (k : String),
    lookupCount (bumpTags ts m) k = lookupCount m k + ts.count k := by
  induction ts with
  | nil => simp [bumpTags]
  | cons t ts ih =>
      intro m k
      simp [bumpTags, ih, lookupCount_bump, List.count_cons]
      by_cases h : t = k <;> simp [h] <;> try omega

theorem lookupCount_tagLoop (v : List disappointment) : ∀ (m : List (String × Nat)) (k : String),
    lookupCount (tagLoop v m) k = lookupCount m k + (v.map (fun g => g.Tags.count k)).sum := by
  induction v with
  | nil => simp [tagLoop]
  | cons g v ih =>
      intro m k
      simp [tagLoop, ih, lookupCount_bumpTags]
      omega

theorem storeRecords_cons (n : String) (v : List disappointment) (rest : StoreMap) :
    storeRecords ((n, v) :: rest) = v ++ storeRecords rest := by
  simp [storeRecords]

theorem lookupCount_tagPass (gs : StoreMap) : ∀ (acc : Nat × List (String × Nat)) (k : String),
    lookupCount (tagPass gs acc).2 k =
      lookupCount acc.2 k + ((storeRecords gs).map (fun g => g.Tags.count k)).sum := by
  induction gs with
  | nil => intro acc k; simp [tagPass, storeRecords]
  | cons kv rest ih =>
      intro acc k
      obtain ⟨n, v⟩ := kv
      simp [tagPass, ih, lookupCount_tagLoop, storeRecords_cons]
      omega

theorem lookupCount_errLoop (v : List disappointment) : ∀ (m : List (String × Nat)) (e : String),
    lookupCount (errLoop v m) e =
      lookupCount m e + v.countP (fun g => decide (g.Error = some e)) := by
  induction v with
  | nil => simp [errLoop]
  | cons g v ih =>
      intro m e
      cases hge : g.Error with
      | none => simp [errLoop, hge, ih, List.countP_cons]
      | some e' =>
          simp [errLoop, hge, ih, lookupCount_bump, List.countP_cons]
          by_cases h : e' = e <;> simp [h] <;> try omega

theorem lookupCount_errPass (gs : StoreMap) : ∀ (m : List (String × Nat)) (e : String),
    lookupCount (errPass gs m) e =
      lookupCount m e + (storeRecords gs).countP (fun g => decide (g.Error = some e)) := by
  induction gs with
  | nil => intro m e; simp [errPass, storeRecords]
  | cons kv rest ih =>
      intro m e
      obtain ⟨n, v⟩ := kv
      simp [errPass, ih, lookupCount_errLoop, storeRecords_cons]
      omega

/-! ## C1, C3, C7: the count fields of the summary -/

/-- C1: for every store and any map iteration orders, the summary's total is
the number of recorded disappointments across all test names — the sum of
the lengths of the per-test sequences, i.e. the length of the concatenation
of all per-test record lists. -/
theorem C1_summary_total (gs : StoreMap) (tI nI eI : List (String × Nat)) :
    (summarize gs tI nI eI).Total = ((gs.map Prod.snd).map List.length).sum ∧
    (summarize gs tI nI eI).Total = (storeRecords gs).length := by
  have h := tagPass_fst gs (0, [])
  constructor
  · simpa [summarize] using h
  · simpa [summarize, storeRecords, List.length_flatten] using h

/-- C3 (amended): `byTag[t]` is the number of `t`-occurrences summed over
the tag lists of all records of all tests: a record contributes one count
per occurrence of `t` in its tag list, not at most one. -/
theorem C3_byTag_occurrences (gs : StoreMap) (tI nI eI : List (String × Nat)) (t : String) :
    lookupCount (summarize gs tI nI eI).ByTag t =
      ((storeRecords gs).map (fun g => g.Tags.count t)).sum := by
  have h := lookupCount_tagPass gs (0, []) t
  simpa [summarize, lookupCount] using h

/-- C3 (counterexample): after `Grievance(t, "m", "a").WithTags("a")` the
stored record's tag list is `["a", "a"]`; exactly one record's deduplicated
tag set contains `"a"`, yet `byTag["a"] = 2`. -/
theorem C3_byTag_cex :
    (storeRecords c3store).countP (fun g => decide ("a" ∈ g.Tags)) = 1 ∧
    lookupCount (summarize c3store [] [] []).ByTag "a" = 2 ∧
    lookupCount (summarize c3store [] [] []).ByTag "a" ≠
      (storeRecords c3store).countP (fun g => decide ("a" ∈ g.Tags)) := by
  decide

/-- C7: `byError[e]` counts exactly the records whose error renders to `e`
(records with an absent error contribute to no entry), and the serialized
summary document carries a `byError` key exactly when `byError` is
non-empty. -/
theorem C7_byError (gs : StoreMap) (tI nI eI : List (String × Nat)) (e : String) :
    lookupCount (summarize gs tI nI eI).ByError e =
      (storeRecords gs).countP (fun g => decide (g.Error = some e)) ∧
    ("byError" ∈ (summaryMarshal (summarize gs tI nI eI)).map Prod.fst ↔
      (summarize gs tI nI eI).ByError ≠ []) := by
  constructor
  · have h := lookupCount_errPass gs [] e
    simpa [summarize, lookupCount] using h
  · simp only [summaryMarshal]
    by_cases h : 0 < (summarize gs tI nI eI).ByError.length
    · have hne : (summarize gs tI nI eI).ByError ≠ [] := by
        intro hnil; rw [hnil] at h; simp at h
      simp [h, hne]
    · have hnil : (summarize gs tI nI eI).ByError = [] := by
        cases hh : (summarize gs tI nI eI).ByError with
        | nil => rfl
        | cons x xs => rw [hh] at h; simp at h
      simp [h, hnil]

/-! ## Helper lemmas: the stable sort of the row lists -/

theorem mem_insertRow {a r : reportRow} : ∀ {l : List reportRow},
    a ∈ insertRow r l ↔ a = r ∨ a ∈ l := by
  intro l
  induction l with
  | nil => simp [insertRow]
  | cons x xs ih =>
      simp only [insertRow]
      split
      · simp [List.mem_cons]
      · simp [List.mem_cons, ih]
        tauto

theorem insertRow_sorted (r : reportRow) : ∀ {l : List reportRow},
    rowsSortedDesc l → rowsSortedDesc (insertRow r l) := by
  intro l
  induction l with
  | nil => intro _; simp [insertRow, rowsSortedDesc]
  | cons x xs ih =>
      intro h
      have hx : ∀ y ∈ xs, y.Count ≤ x.Count := (List.pairwise_cons.mp h).1
      have hxs : rowsSortedDesc xs := (List.pairwise_cons.mp h).2
      simp only [insertRow]
      split
      · rename_i hc
        refine List.Pairwise.cons ?_ h
        intro y hy
        rcases List.mem_cons.mp hy with hy | hy
        · exact hy ▸ hc
        · exact le_trans (hx y hy) hc
      · rename_i hc
        refine List.Pairwise.cons ?_ (ih hxs)
        intro y hy
        rcases mem_insertRow.mp hy with hy | hy
        · exact hy ▸ Nat.le_of_lt (Nat.lt_of_not_le hc)
        · exact hx y hy

theorem insertRow_perm (r : reportRow) (l : List reportRow) :
    (insertRow r l).Perm (r :: l) := by
  induction l with
  | nil => simp [insertRow]
  | cons x xs ih =>
      simp only [insertRow]
      split
      · exact List.Perm.refl _
      · exact ((List.perm_cons x).mpr ih).trans (List.Perm.swap r x xs)

theorem sortRows_sorted (l : List reportRow) : rowsSortedDesc (sortRows l) := by
  induction l with
  | nil => simp [sortRows, rowsSortedDesc]
  | cons a l ih => exact insertRow_sorted a ih

theorem sortRows_perm (l : List reportRow) : (sortRows l).Perm l := by
  induction l with
  | nil => exact List.Perm.refl _
  | cons a l ih =>
      exact (insertRow_perm a (sortRows l)).trans ((List.perm_cons a).mpr ih)

theorem filter_insertRow (r : reportRow) (c : Nat) : ∀ {l : List reportRow},
    rowsSortedDesc l →
    (insertRow r l).filter (fun x => x.Count == c) =
      if r.Count = c then r :: l.filter (fun x => x.Count == c)
      else l.filter (fun x => x.Count == c) := by
  intro l
  induction l with
  | nil =>
      intro _
      by_cases h : r.Count = c <;> simp [insertRow, List.filter_cons, h]
  | cons x xs ih =>
      intro hs
      have hxs : rowsSortedDesc xs := (List.pairwise_cons.mp hs).2
      simp only [insertRow]
      split
      · rename_i hc
        by_cases h : r.Count = c <;> simp [List.filter_cons, h]
      · rename_i hc
        have hlt : r.Count < x.Count := Nat.lt_of_not_le hc
        by_cases h : r.Count = c
        · have hx : ¬(x.Count = c) := by omega
          simp [List.filter_cons, hx, ih hxs, h]
        · by_cases hx : x.Count = c <;> simp [List.filter_cons, hx, ih hxs, h]

theorem sortRows_filter (l : List reportRow) (c : Nat) :
    (sortRows l).filter (fun x => x.Count == c) = l.filter (fun x => x.Count == c) := by
  induction l with
  | nil => rfl
  | cons a l ih =>
      show (insertRow a (sortRows l)).filter _ = _
      rw [filter_insertRow a c (sortRows_sorted l)]
      by_cases h : a.Count = c <;> simp [List.filter_cons, h, ih]

/-! ## C2: ordering of the row lists -/

/-- C2 (amended): for every store and for every order in which Go's map
ranges happen to visit the three count maps, each row list is sorted by
count descending and carries exactly the count map's entries; rows of equal
count keep the order of the map iteration that produced them — which is
unspecified, so equal-count order is not a function of the store and
summarizing the same store twice need not reproduce it. -/
theorem C2_row_lists (gs : StoreMap) (tI nI eI : List (String × Nat))
    (ht : tI.Perm ((tagPass gs (0, [])).2))
    (hn : nI.Perm (namePass gs []))
    (he : eI.Perm (errPass gs [])) :
    rowListOK tI ((tagPass gs (0, [])).2) (summarize gs tI nI eI).tagRows ∧
    rowListOK nI (namePass gs []) (summarize gs tI nI eI).nameRows ∧
    rowListOK eI (errPass gs []) (summarize gs tI nI eI).errorRows := by
  refine ⟨⟨?_, ?_, ?_⟩, ⟨?_, ?_, ?_⟩, ⟨?_, ?_, ?_⟩⟩
  · exact sortRows_sorted _
  · exact (sortRows_perm _).trans (List.Perm.map toRow ht)
  · intro c; exact sortRows_filter _ c
  · exact sortRows_sorted _
  · exact (sortRows_perm _).trans (List.Perm.map toRow hn)
  · intro c; exact sortRows_filter _ c
  · exact sortRows_sorted _
  · exact (sortRows_perm _).trans (List.Perm.map toRow he)
  · intro c; exact sortRows_filter _ c

/-- C2 witness: the row-list guarantees instantiated on `pairStore` with
the three count maps iterated in their discovery order. -/
theorem C2_row_lists_witness :
    List.Perm itAB ((tagPass pairStore (0, [])).2) ∧
    List.Perm [("A", 2)] (namePass pairStore []) ∧
    List.Perm ([] : List (String × Nat)) (errPass pairStore []) ∧
    (rowListOK itAB ((tagPass pairStore (0, [])).2)
        (summarize pairStore itAB [("A", 2)] []).tagRows ∧
      rowListOK [("A", 2)] (namePass pairStore [])
        (summarize pairStore itAB [("A", 2)] []).nameRows ∧
      rowListOK ([] : List (String × Nat)) (errPass pairStore [])
        (summarize pairStore itAB [("A", 2)] []).errorRows) :=
  ⟨by decide, by decide, by decide,
    C2_row_lists pairStore itAB [("A", 2)] [] (by decide) (by decide) (by decide)⟩

/-- C2 (counterexample): `pairStore` discovers tag `a` before tag `b`, both
with count 1; `itAB` is its tag count map in discovery order and `itBA` is
the same map visited in the opposite order — also a permitted Go map
iteration — and the two summarizations produce different `tagRows`
orderings, so equal-count rows need not be in first-discovery order and the
row ordering is not a function of the store. -/
theorem C2_order_not_reproducible :
    itAB = (tagPass pairStore (0, [])).2 ∧
    List.Perm itBA ((tagPass pairStore (0, [])).2) ∧
    (summarize pairStore itAB [("A", 2)] []).tagRows ≠
      (summarize pairStore itBA [("A", 2)] []).tagRows := by
  decide

/-! ## C4: deduplication in the record operation -/

theorem uniqLoop_eq (rest : List String) : ∀ (uniq used : List String),
    uniqLoop uniq used rest =
      uniq ++ dedupKeepFirst (rest.filter (fun x => decide (¬ x ∈ used))) := by
  induction rest with
  | nil => intro uniq used; simp [uniqLoop, dedupKeepFirst]
  | cons t ts ih =>
      intro uniq used
      by_cases h : t ∈ used
      · simp [uniqLoop, h, List.filter_cons, ih]
      · have hf : ts.filter (fun x => decide (¬ x ∈ used ++ [t])) =
            (ts.filter (fun x => decide (¬ x ∈ used))).filter (fun x => x ≠ t) := by
          rw [List.filter_filter]
          apply List.filter_congr
          intro x _
          by_cases hx1 : x ∈ used <;> by_cases hx2 : x = t <;> simp [hx1, hx2]
        simp only [uniqLoop, if_neg h]
        rw [ih]
        simp only [decide_not] at hf ⊢
        rw [hf]
        simp [List.filter_cons, h, dedupKeepFirst]

theorem grievanceTags_eq (tags : List String) :
    grievanceTags tags = dedupKeepFirst tags := by
  have h := uniqLoop_eq tags [] []
  simpa [grievanceTags] using h

theorem mem_dedupKeepFirst : ∀ (l : List String) (x : String),
    x ∈ dedupKeepFirst l ↔ x ∈ l := by
  intro l
  induction l using dedupKeepFirst.induct with
  | case1 => simp [dedupKeepFirst]
  | case2 t rest ih =>
      intro x
      simp only [dedupKeepFirst, List.mem_cons, ih, List.mem_filter]
      by_cases hx : x = t <;> simp [hx]

theorem nodup_dedupKeepFirst : ∀ l : List String, (dedupKeepFirst l).Nodup := by
  intro l
  induction l using dedupKeepFirst.induct with
  | case1 => simp [dedupKeepFirst]
  | case2 t rest ih =>
      simp only [dedupKeepFirst, List.nodup_cons]
      refine ⟨?_, ih⟩
      intro hmem
      have := (mem_dedupKeepFirst _ t).mp hmem
      simp [List.mem_filter] at this

/-- C4: the tag list `Grievance` stores — for any store and any argument
list — is deduplicated: it has no duplicates, holds exactly the argued
tags, and keeps each distinct tag at the position of its first occurrence
(later occurrences dropped). -/
theorem C4_grievance_dedups_tags (tags : List String) :
    (grievanceTags tags).Nodup ∧
    (∀ t, t ∈ grievanceTags tags ↔ t ∈ tags) ∧
    grievanceTags tags = dedupKeepFirst tags ∧
    (∀ (st : StoreMap) (nm msg : String),
      Grievance (some st) nm msg tags =
        GrievanceOutcome.recorded
          (storeAdd st nm { Name := nm, Message := msg, Tags := grievanceTags tags, Error := none })
          { Name := nm, Message := msg, Tags := grievanceTags tags, Error := none }) := by
  refine ⟨?_, ?_, grievanceTags_eq tags, fun st nm msg => rfl⟩
  · rw [grievanceTags_eq]; exact nodup_dedupKeepFirst tags
  · intro t; rw [grievanceTags_eq]; exact mem_dedupKeepFirst tags t

/-! ## C5: final status and report ordering -/

/-- C5: the status `Run` returns is the suite's own code exactly when the
persistence step did not fail, and 1 (failure) when it did, regardless of
the suite's code; the rendered text report is always the first session
event, so it is printed before any attempt to open the sink, and the open
is attempted whenever a sink path is configured. -/
theorem C5_exit_status (code : Int) (gs : StoreMap) (v : Bool)
    (tI nI eI : List (String × Nat)) (env : ReportEnv) :
    (Run code gs v tI nI eI env).1 =
      (if (report gs v tI nI eI env).2.isSome then 1 else code) ∧
    (Run code gs v tI nI eI env).2.head? =
      some (Ev.printed (storeString gs v tI nI eI)) ∧
    (env.reportFile = "" ∨
      Ev.openAttempt env.reportFile reportOpenFlags ∈ (Run code gs v tI nI eI env).2) := by
  unfold Run report
  by_cases hf : env.reportFile = ""
  · simp [hf]
  · cases ho : env.openResult <;> cases he : env.encodeResult <;> simp [hf, ho, he]

/-! ## C6: the sink open mode -/

/-- C6 (counterexample): the sink is opened without the append bit, and a
second session whose document is `BB` over a file holding `AAAA` leaves
`BBAA`, not the back-to-back accumulation `AAAABB`. -/
theorem C6_no_append_cex :
    reportOpenFlags.append = false ∧
    fileContentsAfterWrite reportOpenFlags ("AAAA".toList) ("BB".toList) ≠
      ("AAAA".toList ++ "BB".toList) ∧
    fileContentsAfterWrite reportOpenFlags ("AAAA".toList) ("BB".toList) = "BBAA".toList := by
  decide

/-- C6 (amended): the sink is opened create-if-absent, write-only and
without truncation, but not in append mode: writing starts at offset 0, so
a repeated session against the same path overwrites the front of the
earlier content (earlier bytes past the new document's length survive)
rather than accumulating documents back-to-back. -/
theorem C6_open_mode (existing doc : List Char) :
    reportOpenFlags.create = true ∧ reportOpenFlags.wronly = true ∧
    reportOpenFlags.trunc = false ∧ reportOpenFlags.append = false ∧
    fileContentsAfterWrite reportOpenFlags existing doc = doc ++ existing.drop doc.length := by
  refine ⟨rfl, rfl, rfl, rfl, ?_⟩
  simp [fileContentsAfterWrite, reportOpenFlags]

/-! ## C8: clean-run rendering -/

/-- C8: rendering checks the total first — a zero-total store renders the
distinct clean-run sentence in both verbose and non-verbose mode, and that
sentence differs from the generic count line with a zero count; a positive
total in non-verbose mode renders the one-line total-count message. -/
theorem C8_clean_run_rendering (gs : StoreMap) (v : Bool)
    (tI nI eI : List (String × Nat)) :
    storeString gs v tI nI eI =
      (if (summarize gs tI nI eI).Total = 0 then cleanRunMessage
       else if v then verboseRender (summarize gs tI nI eI)
       else totalMessage (summarize gs tI nI eI).Total) ∧
    cleanRunMessage ≠ totalMessage 0 := by
  constructor
  · unfold storeString
    cases v <;> by_cases h : (summarize gs tI nI eI).Total = 0 <;> simp [h]
  · decide

/-! ## C9: store operations before initialization -/

/-- C9: calling `Grievance` while the package store is uninitialised is the
fail-fast programming-error outcome — it is not any `recorded` outcome, so
nothing is stored and no I/O error is involved — whereas with an
initialised store it never is. -/
theorem C9_uninitialized_fails_fast (nm msg : String) (tags : List String) :
    Grievance none nm msg tags = GrievanceOutcome.programmingError ∧
    (∀ (st : StoreMap) (g : disappointment),
      Grievance none nm msg tags ≠ GrievanceOutcome.recorded st g) ∧
    (∀ st : StoreMap, Grievance (some st) nm msg tags ≠ GrievanceOutcome.programmingError) := by
  refine ⟨rfl, ?_, ?_⟩
  · intro st g h
    simp [Grievance] at h
  · intro st h
    simp [Grievance] at h

/-! ## C10: rendering a single record -/

/-- C10: a record with an empty tag list renders to its message alone —
the error text is omitted even when the error field is set — and the error
text appears exactly when the tag list is non-empty and the error is
present. -/
theorem C10_record_rendering (msg nm e t : String) (err : Option String) (ts : List String) :
    dispString { Message := msg, Tags := [], Error := err, Name := nm } = msg ∧
    dispString { Message := msg, Tags := t :: ts, Error := some e, Name := nm } =
      msg ++ " (" ++ String.intercalate ", " (t :: ts) ++ "): " ++ e ∧
    dispString { Message := msg, Tags := t :: ts, Error := none, Name := nm } =
      msg ++ " (" ++ String.intercalate ", " (t :: ts) ++ ")" := by
  refine ⟨rfl, ?_, ?_⟩ <;> simp [dispString]

end Testivus
